import Mathlib

/-!
Verification of the `pyamlboot` Amlogic USB boot-protocol library
(`pyamlboot/pyamlboot.py`, class `AmlogicSoC`).

The code is shallowly embedded: the USB device is modelled as a state
carrying a byte-addressed memory (the "memory-backed device stub" of the
spec's testable properties) together with a trace of the USB transactions
issued so far.  Each library method becomes a Lean function
`DevState → DevState × Except PyErr α`: Python exceptions become
`Except.error`, and a raise leaves the already-recorded transactions in
the returned state, exactly as a Python exception would.
-/

/-- Request codes, from the module-level constants of `pyamlboot.py`. -/
def REQ_WRITE_MEM : Nat := 0x01

/-- Request code `REQ_READ_MEM = 0x02`. -/
def REQ_READ_MEM : Nat := 0x02

/-- Request code `REQ_MODIFY_MEM = 0x04`. -/
def REQ_MODIFY_MEM : Nat := 0x04

/-- Request code `REQ_RUN_IN_ADDR = 0x05`. -/
def REQ_RUN_IN_ADDR : Nat := 0x05

/-- Request code `REQ_WR_LARGE_MEM = 0x11`. -/
def REQ_WR_LARGE_MEM : Nat := 0x11

/-- Request code `REQ_RD_LARGE_MEM = 0x12`. -/
def REQ_RD_LARGE_MEM : Nat := 0x12

/-- Request code `REQ_PASSWORD = 0x35`. -/
def REQ_PASSWORD : Nat := 0x35

/-- Flag `FLAG_KEEP_POWER_ON = 0x10`, set in the `run` payload. -/
def FLAG_KEEP_POWER_ON : Nat := 0x10

/-- Python exceptions raised by the library: `ValueError(msg)`, the
`NameError` raised when an unbound name is read, and `struct.error`
raised by `pack` when a value does not fit the requested field. -/
inductive PyErr where
  | valueError (msg : String)
  | nameError
  | structError
deriving DecidableEq

/-- One USB transaction (or configuration scan) as seen on the wire:
`ctrlOut` is `dev.ctrl_transfer` with an out payload, `ctrlIn` is
`dev.ctrl_transfer` requesting `wLength` bytes back, `bulkOut`/`bulkIn`
are endpoint writes/reads, and `configScan` records one
`get_active_configuration`/`find_descriptor` endpoint lookup. -/
inductive Event where
  | ctrlOut (bmRequestType bRequest wValue wIndex : Nat) (payload : List Nat)
  | ctrlIn (bmRequestType bRequest wValue wIndex wLength : Nat)
  | bulkOut (payload : List Nat)
  | bulkIn (length : Nat)
  | configScan
deriving DecidableEq

/-- The state of the simulated device: a byte-addressed memory (the
memory-backed stub of spec §8) and the trace of transactions issued. -/
structure DevState where
  mem : Nat → Nat
  trace : List Event

/-- Write `data` into a memory function starting at `address`
(the stub device's semantics for a memory write). -/
def memWrite (m : Nat → Nat) (address : Nat) (data : List Nat) : Nat → Nat :=
  fun a => if address ≤ a ∧ a < address + data.length then data.getD (a - address) 0 else m a

/-- Model of `dev.ctrl_transfer` with `bmRequestType = 0x40` (host to device): records
the transaction and, for `REQ_WRITE_MEM`, lets the stub device store the
payload at the address recombined from `wValue`/`wIndex`. -/
def ctrl_transfer_out (s : DevState) (bmRequestType bRequest wValue wIndex : Nat)
    (payload : List Nat) : DevState :=
  { mem := if bRequest = REQ_WRITE_MEM then
        memWrite s.mem (wValue * 65536 + wIndex) payload
      else s.mem,
    trace := s.trace ++ [.ctrlOut bmRequestType bRequest wValue wIndex payload] }

/-- Model of `dev.ctrl_transfer` with `bmRequestType = 0xc0` (device to host): records
the transaction and returns the device's answer; for `REQ_READ_MEM` the stub
answers with the `wLength` memory bytes at the recombined address. -/
def ctrl_transfer_in (s : DevState) (bmRequestType bRequest wValue wIndex wLength : Nat) :
    DevState × List Nat :=
  ({ s with trace := s.trace ++ [.ctrlIn bmRequestType bRequest wValue wIndex wLength] },
   if bRequest = REQ_READ_MEM then
     (List.range wLength).map (fun i => s.mem (wValue * 65536 + wIndex + i))
   else List.replicate wLength 0)

/-- Model of `ep.write(payload, timeout)` on the bulk-OUT endpoint: records the block. -/
def bulkWrite (s : DevState) (payload : List Nat) : DevState :=
  { s with trace := s.trace ++ [.bulkOut payload] }

/-- Model of `ep.read(length, timeout)` on the bulk-IN endpoint: records the block
request; the stub's bulk data content is not memory-backed. -/
def bulkRead (s : DevState) (length : Nat) : DevState × List Nat :=
  ({ s with trace := s.trace ++ [.bulkIn length] }, List.replicate length 0)

/-- Model of `get_active_configuration` plus `usb.util.find_descriptor`: the endpoint
descriptor lookup performed by the large-transfer methods; modelled as one
recorded configuration scan. -/
def get_active_configuration (s : DevState) : DevState :=
  { s with trace := s.trace ++ [.configScan] }

/-- Little-endian bytes of `pack('<I', x)`: four bytes of `x`. -/
def le32 (x : Nat) : List Nat :=
  [x % 256, x / 256 % 256, x / 65536 % 256, x / 16777216 % 256]

/-- Model of `pack('<I', x)` including `struct.error` when the value does not fit
an unsigned 32-bit field. -/
def packI (x : Nat) : Except PyErr (List Nat) :=
  if x < 4294967296 then .ok (le32 x) else .error .structError

/-- Model of `pack('<IIII', a, b, c, d)`: four unsigned 32-bit little-endian fields,
`struct.error` when a value does not fit. -/
def packIIII (a b c d : Nat) : Except PyErr (List Nat) :=
  if a < 4294967296 ∧ b < 4294967296 ∧ c < 4294967296 ∧ d < 4294967296 then
    .ok (le32 a ++ le32 b ++ le32 c ++ le32 d)
  else .error .structError

/-- Method `writeSimpleMemory(address, data)` (pyamlboot.py:60-69): raise
`ValueError` if `len(data) > 64`, otherwise one control transfer with
`bRequest = REQ_WRITE_MEM`, `wValue = address >> 16`,
`wIndex = address & 0xffff` and `data` as payload. -/
def writeSimpleMemory (s : DevState) (address : Nat) (data : List Nat) :
    DevState × Except PyErr Unit :=
  if data.length > 64 then (s, .error (.valueError "Maximum size of 64bytes"))
  else (ctrl_transfer_out s 0x40 REQ_WRITE_MEM (address >>> 16) (address &&& 0xffff) data, .ok ())

/-- The `while length:` loop of `writeMemory` (pyamlboot.py:71-82): writes
`data[offset:offset+64]` at `address + offset`, subtracts 64 from `length`
while it exceeds 64, else breaks. -/
def writeMemoryLoop (s : DevState) (address : Nat) (data : List Nat) (offset length : Nat) :
    DevState × Except PyErr Unit :=
  if length = 0 then (s, .ok ())
  else
    match writeSimpleMemory s (address + offset) ((data.drop offset).take 64) with
    | (s1, .error e) => (s1, .error e)
    | (s1, .ok ()) =>
      if length > 64 then writeMemoryLoop s1 address data (offset + 64) (length - 64)
      else (s1, .ok ())
termination_by length
decreasing_by simp_wf; omega

/-- Method `writeMemory(address, data)` (pyamlboot.py:71-82). -/
def writeMemory (s : DevState) (address : Nat) (data : List Nat) :
    DevState × Except PyErr Unit :=
  writeMemoryLoop s address data 0 data.length

/-- Method `readSimpleMemory(address, length)` (pyamlboot.py:84-98): empty result
without any transfer for `length == 0`, `ValueError` beyond 64 bytes,
otherwise one in control transfer with the address split across
`wValue`/`wIndex`. -/
def readSimpleMemory (s : DevState) (address length : Nat) :
    DevState × Except PyErr (List Nat) :=
  if length = 0 then (s, .ok [])
  else if length > 64 then (s, .error (.valueError "Maximum size of 64bytes"))
  else
    let (s1, ret) := ctrl_transfer_in s 0xc0 REQ_READ_MEM (address >>> 16) (address &&& 0xffff) length
    (s1, .ok ret)

/-- The `while length:` loop of `readMemory` (pyamlboot.py:100-114): reads
64-byte chunks while at least 64 bytes remain, then one final shorter read,
concatenating in order. -/
def readMemoryLoop (s : DevState) (address offset length : Nat) (data : List Nat) :
    DevState × Except PyErr (List Nat) :=
  if length = 0 then (s, .ok data)
  else if length ≥ 64 then
    match readSimpleMemory s (address + offset) 64 with
    | (s1, .error e) => (s1, .error e)
    | (s1, .ok chunk) => readMemoryLoop s1 address (offset + 64) (length - 64) (data ++ chunk)
  else
    match readSimpleMemory s (address + offset) length with
    | (s1, .error e) => (s1, .error e)
    | (s1, .ok chunk) => (s1, .ok (data ++ chunk))
termination_by length
decreasing_by simp_wf; omega

/-- Method `readMemory(address, length)` (pyamlboot.py:100-114). -/
def readMemory (s : DevState) (address length : Nat) :
    DevState × Except PyErr (List Nat) :=
  readMemoryLoop s address 0 length []

/-- Method `modifyMemory(opcode, address1, data, mask, address2)`
(pyamlboot.py:117-125): packs the four fields as `'<IIII'` and issues one
control transfer with `bRequest = REQ_MODIFY_MEM`, `wValue = opcode`,
`wIndex = 0`; no check is made on `opcode`. -/
def modifyMemory (s : DevState) (opcode address1 data mask address2 : Nat) :
    DevState × Except PyErr Unit :=
  match packIIII address1 data mask address2 with
  | .error e => (s, .error e)
  | .ok controlData =>
    (ctrl_transfer_out s 0x40 REQ_MODIFY_MEM opcode 0 controlData, .ok ())

/-- Method `memcpy(dest, src, n)` (pyamlboot.py:160-162):
`modifyMemory(7, src, n, 0, dest)`. -/
def memcpy (s : DevState) (dest src n : Nat) : DevState × Except PyErr Unit :=
  modifyMemory s 7 src n 0 dest

/-- Method `run(address, keep_power)` (pyamlboot.py:164-175): 4-byte little-endian
payload `address | FLAG_KEEP_POWER_ON` (or bare `address`), with the
address split across `wValue`/`wIndex`. -/
def run (s : DevState) (address : Nat) (keep_power : Bool) :
    DevState × Except PyErr Unit :=
  let data := if keep_power then address ||| FLAG_KEEP_POWER_ON else address
  match packI data with
  | .error e => (s, .error e)
  | .ok controlData =>
    (ctrl_transfer_out s 0x40 REQ_RUN_IN_ADDR (address >>> 16) (address &&& 0xffff) controlData, .ok ())

/-- The `while blockCount > 0:` loop of `writeLargeMemory`
(pyamlboot.py:209-212): bulk-writes `data[offset:offset+blockLength]`,
advancing `offset` and decrementing `blockCount`. -/
def writeLargeLoop (s : DevState) (data : List Nat) (blockLength offset blockCount : Nat) :
    DevState :=
  match blockCount with
  | 0 => s
  | n + 1 =>
    writeLargeLoop (bulkWrite s ((data.drop offset).take blockLength)) data blockLength
      (offset + blockLength) n

/-- Method `writeLargeMemory(address, data, blockLength, appendZeros)`
(pyamlboot.py:180-212): with `appendZeros` the code appends
`len(data) % blockLength` zero bytes; otherwise a length that is not a
multiple of `blockLength` raises `ValueError`.  Then
`blockCount = len(data) // blockLength`, a 4×32-bit announcement control
transfer with `wValue = blockLength`, `wIndex = blockCount` (after the
endpoint lookup), and `blockCount` bulk writes. -/
def writeLargeMemory (s : DevState) (address : Nat) (data : List Nat)
    (blockLength : Nat) (appendZeros : Bool) : DevState × Except PyErr Unit :=
  let padded := if appendZeros then data ++ List.replicate (data.length % blockLength) 0 else data
  if appendZeros = false ∧ data.length % blockLength ≠ 0 then
    (s, .error (.valueError "Large Data must be a multiple of block length"))
  else
    let blockCount := padded.length / blockLength
    match packIIII address padded.length 0 0 with
    | .error e => (s, .error e)
    | .ok controlData =>
      let s1 := get_active_configuration s
      let s2 := ctrl_transfer_out s1 0x40 REQ_WR_LARGE_MEM blockLength blockCount controlData
      (writeLargeLoop s2 padded blockLength 0 blockCount, .ok ())

/-- The `while blockCount > 0:` loop of `readLargeMemory`
(pyamlboot.py:241-243): bulk-reads `blockLength` bytes per block,
concatenating in order. -/
def readLargeLoop (s : DevState) (blockLength blockCount : Nat) (data : List Nat) :
    DevState × List Nat :=
  match blockCount with
  | 0 => (s, data)
  | n + 1 =>
    let (s1, chunk) := bulkRead s blockLength
    readLargeLoop s1 blockLength n (data ++ chunk)

/-- Method `readLargeMemory(address, length, blockLength, appendZeros)`
(pyamlboot.py:214-245): with `appendZeros` the code adds
`length % blockLength` to `length`; otherwise a length that is not a
multiple of `blockLength` raises `ValueError`.  Then the endpoint lookup,
the announcement control transfer and `blockCount` bulk reads. -/
def readLargeMemory (s : DevState) (address length blockLength : Nat)
    (appendZeros : Bool) : DevState × Except PyErr (List Nat) :=
  let length1 := if appendZeros then length + length % blockLength else length
  if appendZeros = false ∧ length % blockLength ≠ 0 then
    (s, .error (.valueError "Large Data must be a multiple of block length"))
  else
    let blockCount := length1 / blockLength
    match packIIII address length1 0 0 with
    | .error e => (s, .error e)
    | .ok controlData =>
      let s1 := get_active_configuration s
      let s2 := ctrl_transfer_out s1 0x40 REQ_RD_LARGE_MEM blockLength blockCount controlData
      let (s3, ret) := readLargeLoop s2 blockLength blockCount []
      (s3, .ok ret)

/-- Method `sendPassword(password)` (pyamlboot.py:259-267).  The guard
`if length != 64:` reads the name `length`, which is bound nowhere in the
function (its parameter is `password`), so Python raises `NameError` at the
guard on every call, before any length check and before any transfer.  The
unbound lookup is modelled by matching on `Option.none`; the `some` branch
transcribes the code that would run if `length` were bound. -/
def sendPassword (s : DevState) (password : List Nat) :
    DevState × Except PyErr Unit :=
  match (none : Option Nat) with
  | none => (s, .error .nameError)
  | some length =>
    if length ≠ 64 then (s, .error (.valueError "Password size is 64bytes"))
    else (ctrl_transfer_out s 0x40 REQ_PASSWORD 0 0 password, .ok ())

/-- Payloads of the bulk-OUT writes in a trace, in order. -/
def bulkOutPayloads (tr : List Event) : List (List Nat) :=
  tr.filterMap fun e => match e with
    | .bulkOut p => some p
    | _ => none

/-- Payloads of the out control transfers in a trace, in order. -/
def ctrlOutPayloads (tr : List Event) : List (List Nat) :=
  tr.filterMap fun e => match e with
    | .ctrlOut _ _ _ _ p => some p
    | _ => none

/-- Number of endpoint-descriptor configuration scans in a trace. -/
def configScans (tr : List Event) : Nat :=
  tr.countP fun e => match e with
    | .configScan => true
    | _ => false

/-! Basic facts about the embedding. -/

/-- The stub device recombines `wValue`/`wIndex` into the original address:
splitting a natural number into its bits above 16 and its low 16 bits loses
nothing. -/
theorem recombine_split (a : Nat) : (a >>> 16) * 65536 + (a &&& 0xffff) = a := by
  have h1 : a >>> 16 = a / 65536 := by rw [Nat.shiftRight_eq_div_pow]
  have h2 : a &&& 0xffff = a % 65536 := by
    have h := Nat.and_pow_two_sub_one_eq_mod a 16
    norm_num at h
    exact h
  rw [h1, h2]
  omega

/-- Writing an empty buffer leaves the stub memory unchanged. -/
theorem memWrite_nil (m : Nat → Nat) (a : Nat) : memWrite m a [] = m := by
  funext p
  simp [memWrite]

/-- Reading back an element under the write window of `memWrite`. -/
theorem memWrite_get (m : Nat → Nat) (a : Nat) (l : List Nat) (i : Nat) (h : i < l.length) :
    memWrite m a l (a + i) = l.getD i 0 := by
  unfold memWrite
  rw [if_pos (by omega)]
  congr 1
  omega

/-- Value of `getD` through `take`. -/
theorem getD_take (l : List Nat) (i n : Nat) (h : i < n) : (l.take n).getD i 0 = l.getD i 0 := by
  rw [List.getD_eq_getElem?_getD, List.getD_eq_getElem?_getD, List.getElem?_take, if_pos h]

/-- Value of `getD` through `drop`. -/
theorem getD_drop (l : List Nat) (i n : Nat) : (l.drop n).getD i 0 = l.getD (n + i) 0 := by
  rw [List.getD_eq_getElem?_getD, List.getD_eq_getElem?_getD, List.getElem?_drop]

/-- Writing a buffer in two pieces, the first 64 bytes and the rest at the
shifted address, is the same as writing it at once. -/
theorem memWrite_split (m : Nat → Nat) (a : Nat) (l : List Nat) (h : 64 < l.length) :
    memWrite (memWrite m a (l.take 64)) (a + 64) (l.drop 64) = memWrite m a l := by
  funext p
  by_cases h1 : a + 64 ≤ p ∧ p < a + 64 + (l.drop 64).length
  · rw [memWrite, if_pos h1, memWrite, if_pos (by simp at h1 ⊢; omega)]
    rw [getD_drop]
    congr 1
    omega
  · rw [memWrite, if_neg h1]
    by_cases h2 : a ≤ p ∧ p < a + (l.take 64).length
    · rw [memWrite, if_pos h2, memWrite, if_pos (by simp at h2 ⊢; omega)]
      rw [getD_take]
      simp at h2
      omega
    · rw [memWrite, if_neg h2, memWrite, if_neg (by simp at h1 h2 ⊢; omega)]

/-- Rebuilding a list from its elements by position. -/
theorem map_getD_range (l : List Nat) : (List.range l.length).map (fun i => l.getD i 0) = l := by
  induction l with
  | nil => simp
  | cons x xs ih =>
    rw [List.length_cons, List.range_succ_eq_map, List.map_cons, List.map_map]
    have h : ((fun i => (x :: xs).getD i 0) ∘ Nat.succ) = fun i => xs.getD i 0 :=
      funext fun i => List.getD_cons_succ
    rw [h, ih, List.getD_cons_zero]

/-! Claim theorems. -/

/-- C7: `writeSimpleMemory` fails with `ValueError` for every buffer longer
than 64 bytes and `readSimpleMemory` fails with `ValueError` for every
requested length greater than 64, in both cases leaving the device
untouched (no transfer issued); `readSimpleMemory` with length 0 returns an
empty buffer and issues no transfer. -/
theorem writeSimpleMemory_readSimpleMemory_bounds (s : DevState) (address : Nat)
    (data : List Nat) (length : Nat) :
    (data.length > 64 →
      writeSimpleMemory s address data = (s, .error (.valueError "Maximum size of 64bytes"))) ∧
    (length > 64 →
      readSimpleMemory s address length = (s, .error (.valueError "Maximum size of 64bytes"))) ∧
    readSimpleMemory s address 0 = (s, .ok []) := by
  refine ⟨fun h => ?_, fun h => ?_, ?_⟩
  · rw [writeSimpleMemory, if_pos h]
  · rw [readSimpleMemory, if_neg (by omega), if_pos h]
  · rw [readSimpleMemory, if_pos rfl]

/-- Witness for C7 at a 65-byte buffer and a 65-byte read request. -/
theorem writeSimpleMemory_readSimpleMemory_bounds_witness :
    (List.replicate 65 1).length > 64 ∧
    writeSimpleMemory ⟨fun _ => 0, []⟩ 3 (List.replicate 65 1)
      = (⟨fun _ => 0, []⟩, .error (.valueError "Maximum size of 64bytes")) ∧
    readSimpleMemory ⟨fun _ => 0, []⟩ 3 65
      = (⟨fun _ => 0, []⟩, .error (.valueError "Maximum size of 64bytes")) ∧
    readSimpleMemory ⟨fun _ => 0, []⟩ 3 0 = (⟨fun _ => 0, []⟩, .ok []) := by
  have h := writeSimpleMemory_readSimpleMemory_bounds ⟨fun _ => 0, []⟩ 3 (List.replicate 65 1) 65
  exact ⟨by decide, h.1 (by decide), h.2.1 (by decide), h.2.2⟩

/-- C10: `modifyMemory` validates nothing about its sub-opcode: for every
opcode value (also outside 0-7) it raises no error and issues exactly one
control transfer with that value in `wValue`, zero in `wIndex`, and the
four fields packed little-endian in the payload. -/
theorem modifyMemory_unchecked_opcode (s : DevState) (opcode address1 data mask address2 : Nat)
    (h1 : address1 < 4294967296) (h2 : data < 4294967296)
    (h3 : mask < 4294967296) (h4 : address2 < 4294967296) :
    (modifyMemory s opcode address1 data mask address2).1.trace
      = s.trace ++ [.ctrlOut 0x40 REQ_MODIFY_MEM opcode 0
          (le32 address1 ++ le32 data ++ le32 mask ++ le32 address2)] ∧
    (modifyMemory s opcode address1 data mask address2).2 = .ok () := by
  rw [modifyMemory, packIIII, if_pos ⟨h1, h2, h3, h4⟩]
  exact ⟨rfl, rfl⟩

/-- Witness for C10 at the out-of-range sub-opcode 1000. -/
theorem modifyMemory_unchecked_opcode_witness :
    (1000 : Nat) > 7 ∧
    (modifyMemory ⟨fun _ => 0, []⟩ 1000 1 2 3 4).1.trace
      = [.ctrlOut 0x40 REQ_MODIFY_MEM 1000 0 (le32 1 ++ le32 2 ++ le32 3 ++ le32 4)] ∧
    (modifyMemory ⟨fun _ => 0, []⟩ 1000 1 2 3 4).2 = .ok () :=
  ⟨by decide, (modifyMemory_unchecked_opcode ⟨fun _ => 0, []⟩ 1000 1 2 3 4
      (by decide) (by decide) (by decide) (by decide)).1,
    (modifyMemory_unchecked_opcode ⟨fun _ => 0, []⟩ 1000 1 2 3 4
      (by decide) (by decide) (by decide) (by decide)).2⟩

/-- C2 (code bug): `sendPassword` raises `NameError` on every call, because
its guard reads the unbound name `length`; no length check against the
password is performed and no transfer is ever issued, for any buffer
(also for a correct 64-byte one). -/
theorem sendPassword_always_nameError (s : DevState) (password : List Nat) :
    sendPassword s password = (s, .error .nameError) := rfl

/-- C6: `writeLargeMemory` with `appendZeros = false` and a data length that
is not a multiple of `blockLength` fails with `ValueError` and issues zero
USB transactions (the returned state is the input state, untouched). -/
theorem writeLargeMemory_reject_unaligned (s : DevState) (address : Nat) (data : List Nat)
    (blockLength : Nat) (_hb : 0 < blockLength) (h : data.length % blockLength ≠ 0) :
    writeLargeMemory s address data blockLength false
      = (s, .error (.valueError "Large Data must be a multiple of block length")) := by
  simp [writeLargeMemory, h]

/-- Witness for C6: a 3-byte buffer against block length 64. -/
theorem writeLargeMemory_reject_unaligned_witness :
    (0 : Nat) < 64 ∧ ([1, 2, 3] : List Nat).length % 64 ≠ 0 ∧
    writeLargeMemory ⟨fun _ => 0, []⟩ 9 [1, 2, 3] 64 false
      = (⟨fun _ => 0, []⟩, .error (.valueError "Large Data must be a multiple of block length")) :=
  ⟨by decide, by decide,
    writeLargeMemory_reject_unaligned ⟨fun _ => 0, []⟩ 9 [1, 2, 3] 64 (by decide) (by decide)⟩

/-- Counterexample to C5: at `memcpy(dest=1, src=2, n=3)` the single issued
transfer's payload starts with the little-endian source address (2), not the
destination address (1), so the `addr1` (first) field does not carry the
destination as the claim states. -/
theorem memcpy_first_field_is_source_counterexample :
    ctrlOutPayloads ((memcpy ⟨fun _ => 0, []⟩ 1 2 3).1.trace)
      = [le32 2 ++ le32 3 ++ le32 0 ++ le32 1] ∧
    (le32 2 ++ le32 3 ++ le32 0 ++ le32 1).take 4 = le32 2 ∧
    le32 2 ≠ le32 1 := by decide

/-- C5 as amended: `memcpy(dest, src, n)` issues one control transfer with
sub-opcode 7 in `wValue`, zero in `wIndex`, and a payload whose four
little-endian 32-bit fields are the SOURCE address first, then `n`, then 0,
then the destination address last (the code passes `src` as `address1` and
`dest` as `address2`, opposite to the spec's table row for sub-opcode 7). -/
theorem memcpy_wire_format (s : DevState) (dest src n : Nat)
    (h1 : src < 4294967296) (h2 : n < 4294967296) (h3 : dest < 4294967296) :
    (memcpy s dest src n).1.trace
      = s.trace ++ [.ctrlOut 0x40 REQ_MODIFY_MEM 7 0 (le32 src ++ le32 n ++ le32 0 ++ le32 dest)] ∧
    (memcpy s dest src n).2 = .ok () := by
  rw [memcpy, modifyMemory, packIIII, if_pos ⟨h1, h2, by omega, h3⟩]
  exact ⟨rfl, rfl⟩

/-- Witness for the amended C5. -/
theorem memcpy_wire_format_witness :
    (2 : Nat) < 4294967296 ∧
    (memcpy ⟨fun _ => 0, []⟩ 1 2 3).1.trace
      = [.ctrlOut 0x40 REQ_MODIFY_MEM 7 0 (le32 2 ++ le32 3 ++ le32 0 ++ le32 1)] ∧
    (memcpy ⟨fun _ => 0, []⟩ 1 2 3).2 = .ok () :=
  ⟨by decide,
    (memcpy_wire_format ⟨fun _ => 0, []⟩ 1 2 3 (by decide) (by decide) (by decide)).1,
    (memcpy_wire_format ⟨fun _ => 0, []⟩ 1 2 3 (by decide) (by decide) (by decide)).2⟩

/-- Counterexample to C8: `modifyMemory` puts an address on the wire (its
`address1` field, the target register of the `writeReg` sub-opcode 0) yet
its control transfer carries the sub-opcode in `wValue` and zero in
`wIndex`, not the address's 16-bit halves: at `address1 = 0x12345678` the
issued `wValue` is 0, while the high half is 0x1234 and the low half is
0x5678. -/
theorem modifyMemory_no_header_split_counterexample :
    (modifyMemory ⟨fun _ => 0, []⟩ 0 0x12345678 0 0 0).1.trace
      = [.ctrlOut 0x40 REQ_MODIFY_MEM 0 0 (le32 0x12345678 ++ le32 0 ++ le32 0 ++ le32 0)] ∧
    (0 : Nat) ≠ 0x12345678 >>> 16 ∧ (0 : Nat) ≠ 0x12345678 &&& 0xffff := by decide

/-- C8 as amended: the operations that carry their address in the control
transfer header, `writeSimpleMemory`, `readSimpleMemory` and `run`, all put
the address's high 16 bits in `wValue` and its low 16 bits in `wIndex`;
`modifyMemory` (and the large-transfer announcements) instead carry
addresses as little-endian payload fields, with other data in the header. -/
theorem address_header_split (s : DevState) (address : Nat) (data : List Nat)
    (length : Nat) (keep_power : Bool) (hd : data.length ≤ 64)
    (hl1 : 1 ≤ length) (hl2 : length ≤ 64) (ha : address < 4294967296) :
    (writeSimpleMemory s address data).1.trace
      = s.trace ++ [.ctrlOut 0x40 REQ_WRITE_MEM (address >>> 16) (address &&& 0xffff) data] ∧
    (readSimpleMemory s address length).1.trace
      = s.trace ++ [.ctrlIn 0xc0 REQ_READ_MEM (address >>> 16) (address &&& 0xffff) length] ∧
    (run s address keep_power).1.trace
      = s.trace ++ [.ctrlOut 0x40 REQ_RUN_IN_ADDR (address >>> 16) (address &&& 0xffff)
          (le32 (if keep_power then address ||| FLAG_KEEP_POWER_ON else address))] := by
  refine ⟨?_, ?_, ?_⟩
  · rw [writeSimpleMemory, if_neg (by omega)]
    rfl
  · rw [readSimpleMemory, if_neg (by omega), if_neg (by omega)]
    rfl
  · have hfit : (if keep_power then address ||| FLAG_KEEP_POWER_ON else address) < 4294967296 := by
      cases keep_power with
      | false => simpa using ha
      | true =>
        have h16 : FLAG_KEEP_POWER_ON < 4294967296 := by decide
        have := Nat.or_lt_two_pow (n := 32) (by simpa using ha) (by simpa using h16)
        simpa using this
    simp only [run]
    rw [packI, if_pos hfit]
    rfl

/-- Witness for the amended C8 at address `0x12345678`. -/
theorem address_header_split_witness :
    ([1] : List Nat).length ≤ 64 ∧
    (writeSimpleMemory ⟨fun _ => 0, []⟩ 0x12345678 [1]).1.trace
      = [.ctrlOut 0x40 REQ_WRITE_MEM 0x1234 0x5678 [1]] ∧
    (readSimpleMemory ⟨fun _ => 0, []⟩ 0x12345678 4).1.trace
      = [.ctrlIn 0xc0 REQ_READ_MEM 0x1234 0x5678 4] ∧
    (run ⟨fun _ => 0, []⟩ 0x12345678 true).1.trace
      = [.ctrlOut 0x40 REQ_RUN_IN_ADDR 0x1234 0x5678 (le32 0x12345678)] := by
  have h := address_header_split ⟨fun _ => 0, []⟩ 0x12345678 [1] 4 true
    (by decide) (by decide) (by decide) (by decide)
  refine ⟨by decide, ?_, ?_, ?_⟩
  · rw [h.1]; decide
  · rw [h.2.1]; decide
  · rw [h.2.2]; decide

/-- The bulk-write loop performs no endpoint descriptor lookup. -/
theorem writeLargeLoop_configScans (data : List Nat) (blockLength : Nat) :
    ∀ (blockCount : Nat) (s : DevState) (offset : Nat),
      configScans (writeLargeLoop s data blockLength offset blockCount).trace
        = configScans s.trace := by
  intro blockCount
  induction blockCount with
  | zero => intro s offset; rfl
  | succ n ih =>
    intro s offset
    rw [writeLargeLoop, ih]
    simp [bulkWrite, configScans, List.countP_append]

/-- The bulk-read loop performs no endpoint descriptor lookup. -/
theorem readLargeLoop_configScans (blockLength : Nat) :
    ∀ (blockCount : Nat) (s : DevState) (data : List Nat),
      configScans (readLargeLoop s blockLength blockCount data).1.trace
        = configScans s.trace := by
  intro blockCount
  induction blockCount with
  | zero => intro s data; rfl
  | succ n ih =>
    intro s data
    rw [readLargeLoop]
    simp only []
    rw [ih]
    simp [bulkRead, configScans, List.countP_append]

/-- Counterexample to C9: two successive `writeLargeMemory` calls on the
same session perform two configuration scans for the bulk-OUT endpoint, so
the scan does not happen "at most once per direction" across a sequence of
calls — there is no caching in the code. -/
theorem endpoint_lookup_not_cached_counterexample :
    configScans ((writeLargeMemory
        (writeLargeMemory ⟨fun _ => 0, []⟩ 4096 (List.replicate 64 5) 64 false).1
        4096 (List.replicate 64 5) 64 false).1.trace) = 2 ∧
    ¬ (2 ≤ 1) := by decide

/-- C9 as amended: the bulk endpoint descriptor lookup is performed anew on
every `writeLargeMemory` and every `readLargeMemory` call — exactly one
configuration scan per successful call, with no caching on the session; a
call's only effect on the session is the transactions it appends. -/
theorem endpoint_lookup_per_call (s : DevState) (address : Nat) (data : List Nat)
    (length blockLength : Nat) (appendZeros : Bool)
    (hdata : data.length % blockLength = 0) (hlen : length % blockLength = 0)
    (ha : address < 4294967296) (hd : data.length < 4294967296)
    (hl : length < 4294967296) :
    configScans ((writeLargeMemory s address data blockLength appendZeros).1.trace)
      = configScans s.trace + 1 ∧
    configScans ((readLargeMemory s address length blockLength appendZeros).1.trace)
      = configScans s.trace + 1 := by
  constructor
  · rw [writeLargeMemory]
    simp only [hdata, List.replicate_zero, List.append_nil, ite_self]
    rw [if_neg (by simp [hdata]), packIIII, if_pos ⟨ha, hd, by omega, by omega⟩]
    simp only []
    rw [writeLargeLoop_configScans]
    simp [ctrl_transfer_out, get_active_configuration, configScans, List.countP_append]
  · rw [readLargeMemory]
    simp only [hlen, Nat.add_zero, ite_self]
    rw [if_neg (by simp [hlen]), packIIII, if_pos ⟨ha, hl, by omega, by omega⟩]
    simp only []
    rw [readLargeLoop_configScans]
    simp [ctrl_transfer_out, get_active_configuration, configScans, List.countP_append]

/-- Witness for the amended C9 on a one-block transfer. -/
theorem endpoint_lookup_per_call_witness :
    (List.replicate 64 5).length % 64 = 0 ∧
    configScans ((writeLargeMemory ⟨fun _ => 0, []⟩ 4096 (List.replicate 64 5) 64 false).1.trace)
      = configScans ([] : List Event) + 1 ∧
    configScans ((readLargeMemory ⟨fun _ => 0, []⟩ 4096 64 64 false).1.trace)
      = configScans ([] : List Event) + 1 :=
  ⟨by decide,
    (endpoint_lookup_per_call ⟨fun _ => 0, []⟩ 4096 (List.replicate 64 5) 64 64 false
      (by decide) (by decide) (by decide) (by decide) (by decide)).1,
    (endpoint_lookup_per_call ⟨fun _ => 0, []⟩ 4096 (List.replicate 64 5) 64 64 false
      (by decide) (by decide) (by decide) (by decide) (by decide)).2⟩

set_option maxRecDepth 10000 in
/-- C1 (code bug): with `appendZeros=True` and a 65-byte buffer against a
64-byte block length, `writeLargeMemory` appends `65 % 64 = 1` zero byte
(yielding 66 bytes) instead of padding to the 128-byte boundary, computes
`blockCount = 66 // 64 = 1`, and issues a single bulk write holding only
the first 64 data bytes — the last 2 bytes are silently dropped, whereas
the claim requires `ceil(65/64) = 2` block writes whose concatenation is
the zero-padded buffer. -/
theorem writeLargeMemory_padding_bug :
    bulkOutPayloads ((writeLargeMemory ⟨fun _ => 0, []⟩ 0 (List.replicate 65 7) 64 true).1.trace)
      = [List.replicate 64 7] ∧
    (65 + 64 - 1) / 64 = 2 ∧
    (List.replicate 64 7 : List Nat) ≠ List.replicate 65 7 ++ List.replicate 63 0 := by decide

/-- Characterization of `writeMemory`'s loop: starting at `offset` with
`length` bytes remaining (the loop's invariant relating them to `data`),
it issues one `REQ_WRITE_MEM` control transfer per 64-byte chunk of
`data[offset:]`, in address order, and the stub memory receives exactly
`data[offset:]` at `address + offset`. -/
theorem writeMemoryLoop_spec (length : Nat) (s : DevState) (address : Nat) (data : List Nat)
    (offset : Nat) (h : length = data.length - offset) (ho : offset ≤ data.length) :
    writeMemoryLoop s address data offset length =
      ({ mem := memWrite s.mem (address + offset) (data.drop offset),
         trace := s.trace ++ (List.range ((length + 63) / 64)).map (fun i =>
           Event.ctrlOut 0x40 REQ_WRITE_MEM ((address + offset + 64 * i) >>> 16)
             ((address + offset + 64 * i) &&& 0xffff) ((data.drop (offset + 64 * i)).take 64)) },
       .ok ()) := by
  have hlen : (data.drop offset).length = length := by
    rw [List.length_drop]
    omega
  by_cases h0 : length = 0
  · subst h0
    rw [writeMemoryLoop, if_pos rfl]
    have hdrop : data.drop offset = [] := List.drop_eq_nil_of_le (by omega)
    rw [hdrop, memWrite_nil]
    norm_num
  · have hchunk : ¬ ((data.drop offset).take 64).length > 64 := by
      rw [List.length_take]
      omega
    have hw : writeSimpleMemory s (address + offset) ((data.drop offset).take 64)
        = (ctrl_transfer_out s 0x40 REQ_WRITE_MEM ((address + offset) >>> 16)
            ((address + offset) &&& 0xffff) ((data.drop offset).take 64), .ok ()) := by
      rw [writeSimpleMemory, if_neg hchunk]
    rw [writeMemoryLoop, if_neg h0, hw]
    by_cases h64 : length > 64
    · dsimp only
      rw [if_pos h64]
      rw [writeMemoryLoop_spec (length - 64) _ address data (offset + 64) (by omega) (by omega)]
      rw [Prod.mk.injEq]
      refine ⟨?_, rfl⟩
      rw [ctrl_transfer_out]
      dsimp only
      rw [DevState.mk.injEq]
      constructor
      · rw [if_pos rfl, recombine_split, ← List.drop_drop, ← Nat.add_assoc]
        exact memWrite_split s.mem (address + offset) (data.drop offset) (by omega)
      · have hn : (length + 63) / 64 = (length - 64 + 63) / 64 + 1 := by omega
        rw [hn, List.range_succ_eq_map, List.map_cons, List.map_map, List.append_assoc,
          List.singleton_append]
        congr 1
        congr 1
        refine List.map_congr_left fun a _ => ?_
        simp only [Function.comp_apply]
        have e1 : address + offset + 64 * Nat.succ a = address + (offset + 64) + 64 * a := by
          rw [Nat.succ_eq_add_one]
          ring
        have e2 : offset + 64 * Nat.succ a = offset + 64 + 64 * a := by
          rw [Nat.succ_eq_add_one]
          ring
        rw [e1, e2]
    · dsimp only
      rw [if_neg h64]
      rw [Prod.mk.injEq]
      refine ⟨?_, rfl⟩
      rw [ctrl_transfer_out]
      rw [DevState.mk.injEq]
      constructor
      · rw [if_pos rfl, recombine_split, List.take_of_length_le (by omega)]
      · have hn : (length + 63) / 64 = 1 := by omega
        have hr : List.range 1 = [0] := by decide
        rw [hn, hr, List.map_cons, List.map_nil]
        norm_num
termination_by length

/-- Full `writeMemory(address, data)` issues exactly the per-chunk transfers and
writes `data` at `address` into the stub memory. -/
theorem writeMemory_spec (s : DevState) (address : Nat) (data : List Nat) :
    writeMemory s address data =
      ({ mem := memWrite s.mem address data,
         trace := s.trace ++ (List.range ((data.length + 63) / 64)).map (fun i =>
           Event.ctrlOut 0x40 REQ_WRITE_MEM ((address + 64 * i) >>> 16)
             ((address + 64 * i) &&& 0xffff) ((data.drop (64 * i)).take 64)) },
       .ok ()) := by
  rw [writeMemory, writeMemoryLoop_spec data.length s address data 0 (by omega) (by omega)]
  simp only [Nat.add_zero, Nat.zero_add, List.drop_zero]

/-- Splitting a buffer into consecutive 64-byte chunks and concatenating
them gives back the buffer. -/
theorem chunks_flatten (data : List Nat) :
    ((List.range ((data.length + 63) / 64)).map (fun i => (data.drop (64 * i)).take 64)).flatten
      = data := by
  by_cases h0 : data.length = 0
  · have hnil : data = [] := List.eq_nil_of_length_eq_zero h0
    subst hnil
    simp
  · by_cases h64 : data.length ≤ 64
    · have hn : (data.length + 63) / 64 = 1 := by omega
      have hr : List.range 1 = [0] := by decide
      rw [hn, hr, List.map_cons, List.map_nil, List.flatten_cons, List.flatten_nil,
        List.append_nil]
      norm_num
      exact h64
    · have hn : (data.length + 63) / 64 = ((data.drop 64).length + 63) / 64 + 1 := by
        rw [List.length_drop]
        omega
      rw [hn, List.range_succ_eq_map, List.map_cons, List.map_map, List.flatten_cons]
      have hmap : List.map ((fun i => (data.drop (64 * i)).take 64) ∘ Nat.succ)
            (List.range (((data.drop 64).length + 63) / 64))
          = List.map (fun i => ((data.drop 64).drop (64 * i)).take 64)
            (List.range (((data.drop 64).length + 63) / 64)) := by
        refine List.map_congr_left fun a _ => ?_
        simp only [Function.comp_apply]
        rw [List.drop_drop]
        have e1 : 64 * Nat.succ a = 64 + 64 * a := by
          rw [Nat.succ_eq_add_one]
          ring
        rw [e1]
      rw [hmap, chunks_flatten (data.drop 64)]
      norm_num
termination_by data.length
decreasing_by simp [List.length_drop]; omega

/-- Extracting payloads out of a map that always produces a payload. -/
theorem filterMap_some_map (g : Nat → List Nat) (l : List Nat) :
    List.filterMap (fun a => some (g a)) l = l.map g := by
  induction l with
  | nil => rfl
  | cons x xs ih => simp [List.filterMap_cons, ih]

/-- C4: `writeMemory(address, data)` issues exactly `ceil(len(data)/64)`
single-chunk control transfers, the `i`-th addressed at `address + 64*i`
(split across `wValue`/`wIndex`) and carrying `data[64*i : 64*i+64]`; each
payload is at most 64 bytes and their concatenation is exactly `data`
(no gaps, no overlaps); an empty buffer issues zero transfers. -/
theorem writeMemory_chunked (m : Nat → Nat) (address : Nat) (data : List Nat) :
    ∃ s1, writeMemory ⟨m, []⟩ address data = (s1, .ok ()) ∧
      s1.trace.length = (data.length + 63) / 64 ∧
      s1.trace = (List.range ((data.length + 63) / 64)).map (fun i =>
        Event.ctrlOut 0x40 REQ_WRITE_MEM ((address + 64 * i) >>> 16)
          ((address + 64 * i) &&& 0xffff) ((data.drop (64 * i)).take 64)) ∧
      (ctrlOutPayloads s1.trace).flatten = data ∧
      ∀ p ∈ ctrlOutPayloads s1.trace, p.length ≤ 64 := by
  have hp : ctrlOutPayloads ((List.range ((data.length + 63) / 64)).map (fun i =>
      Event.ctrlOut 0x40 REQ_WRITE_MEM ((address + 64 * i) >>> 16)
        ((address + 64 * i) &&& 0xffff) ((data.drop (64 * i)).take 64)))
      = (List.range ((data.length + 63) / 64)).map (fun i => (data.drop (64 * i)).take 64) := by
    rw [ctrlOutPayloads, List.filterMap_map]
    exact filterMap_some_map _ _
  refine ⟨_, writeMemory_spec ⟨m, []⟩ address data, by simp, by simp, ?_, ?_⟩
  · simp only [List.nil_append]
    rw [hp]
    exact chunks_flatten data
  · intro p hmem
    simp only [List.nil_append] at hmem
    rw [hp] at hmem
    simp only [List.mem_map, List.mem_range] at hmem
    obtain ⟨i, _, hi⟩ := hmem
    subst hi
    rw [List.length_take]
    omega

/-- Splitting a `map` over an index range at `k`. -/
theorem rangeMap_split (f : Nat → Nat) (k n : Nat) (h : k ≤ n) :
    (List.range n).map f
      = (List.range k).map f ++ (List.range (n - k)).map (fun i => f (k + i)) := by
  have hn : n = k + (n - k) := by omega
  rw [hn, List.range_add, List.map_append, List.map_map]
  have h2 : k + (n - k) - k = n - k := by omega
  rw [h2]
  rfl

/-- Characterization of `readMemory`'s loop: it returns the accumulated
prefix followed by the `length` stub-memory bytes starting at
`address + offset`, and leaves the memory unchanged. -/
theorem readMemoryLoop_val (length : Nat) (s : DevState) (address offset : Nat)
    (acc : List Nat) :
    (readMemoryLoop s address offset length acc).2
      = .ok (acc ++ (List.range length).map (fun i => s.mem (address + offset + i))) ∧
    (readMemoryLoop s address offset length acc).1.mem = s.mem := by
  by_cases h0 : length = 0
  · subst h0
    rw [readMemoryLoop, if_pos rfl]
    simp
  · by_cases h64 : length ≥ 64
    · have hr : readSimpleMemory s (address + offset) 64
          = ({ s with trace := s.trace ++ [.ctrlIn 0xc0 REQ_READ_MEM ((address + offset) >>> 16)
                ((address + offset) &&& 0xffff) 64] },
             .ok ((List.range 64).map (fun i => s.mem (address + offset + i)))) := by
        rw [readSimpleMemory, if_neg (by omega), if_neg (by omega), ctrl_transfer_in]
        simp only [recombine_split]
        rfl
      rw [readMemoryLoop, if_neg h0, if_pos h64, hr]
      dsimp only
      obtain ⟨ih1, ih2⟩ := readMemoryLoop_val (length - 64) _ address (offset + 64)
        (acc ++ (List.range 64).map (fun i => s.mem (address + offset + i)))
      refine ⟨?_, by rw [ih2]⟩
      rw [ih1]
      congr 1
      rw [List.append_assoc]
      congr 1
      rw [rangeMap_split (fun i => s.mem (address + offset + i)) 64 length h64]
      congr 1
      refine List.map_congr_left fun a _ => ?_
      have e1 : address + offset + (64 + a) = address + (offset + 64) + a := by ring
      rw [e1]
    · have hr : readSimpleMemory s (address + offset) length
          = ({ s with trace := s.trace ++ [.ctrlIn 0xc0 REQ_READ_MEM ((address + offset) >>> 16)
                ((address + offset) &&& 0xffff) length] },
             .ok ((List.range length).map (fun i => s.mem (address + offset + i)))) := by
        rw [readSimpleMemory, if_neg h0, if_neg (by omega), ctrl_transfer_in]
        simp only [recombine_split]
        rfl
      rw [readMemoryLoop, if_neg h0, if_neg h64, hr]
      dsimp only
      exact ⟨rfl, rfl⟩
termination_by length

/-- Reading `len(data)` bytes at `address` from a stub memory into which
`data` was just written at `address` returns exactly `data`. -/
theorem readMemory_of_memWrite (m : Nat → Nat) (tr : List Event) (address : Nat)
    (data : List Nat) :
    (readMemory ⟨memWrite m address data, tr⟩ address data.length).2 = .ok data := by
  have hval := (readMemoryLoop_val data.length ⟨memWrite m address data, tr⟩ address 0 []).1
  rw [readMemory, hval]
  simp only [List.nil_append, Nat.add_zero]
  congr 1
  have hstep : ∀ i ∈ List.range data.length,
      (⟨memWrite m address data, tr⟩ : DevState).mem (address + i) = data.getD i 0 := by
    intro i hi
    rw [List.mem_range] at hi
    exact memWrite_get m address data i hi
  rw [List.map_congr_left hstep]
  exact map_getD_range data

/-- C3: the round-trip law against the memory-backed device stub — writing
any buffer of at most 4096 bytes at an address and reading the same number
of bytes back from that address returns exactly the buffer. -/
theorem writeMemory_readMemory_roundtrip (m : Nat → Nat) (address : Nat) (data : List Nat)
    (_hbound : data.length ≤ 4096) :
    ∃ s1 s2, writeMemory ⟨m, []⟩ address data = (s1, .ok ()) ∧
      readMemory s1 address data.length = (s2, .ok data) := by
  have hw := writeMemory_spec ⟨m, []⟩ address data
  have hr := readMemory_of_memWrite m ((List.range ((data.length + 63) / 64)).map (fun i =>
      Event.ctrlOut 0x40 REQ_WRITE_MEM ((address + 64 * i) >>> 16)
        ((address + 64 * i) &&& 0xffff) ((data.drop (64 * i)).take 64))) address data
  exact ⟨_, _, hw, Prod.ext rfl hr⟩

/-- Witness for C3 on a concrete three-byte buffer. -/
theorem writeMemory_readMemory_roundtrip_witness :
    ([1, 2, 3] : List Nat).length ≤ 4096 ∧
    ∃ s1 s2, writeMemory ⟨fun _ => 0, []⟩ 5 [1, 2, 3] = (s1, .ok ()) ∧
      readMemory s1 5 ([1, 2, 3] : List Nat).length = (s2, .ok [1, 2, 3]) :=
  ⟨by decide, writeMemory_readMemory_roundtrip (fun _ => 0) 5 [1, 2, 3] (by decide)⟩
